import Mathlib

/-!
Shallow embedding of the bitkub-chain PoA/PoSA consensus engine
(package `clique`): header seal verification, PoSA finalization with
synthetic system transactions, and span validator selection.

Addresses, hashes and 64-bit words are modelled as `Nat`; uint64
wraparound is written explicitly as `% 2^64` where the Go code can
overflow.  Cryptographic signature recovery (`ecrecover`) is a
parameter: the embedded verifiers take the recovery result as an
argument.  Fallible Go code becomes `Except` / `Option`.
-/

namespace BkcClique

/-- Account address (20 bytes), as a natural number below 2^160. -/
abbrev Address := Nat

/-- Hash value (32 bytes), as a natural number. -/
abbrev Hash := Nat

/-- Modulus of Go's `uint64` arithmetic, 2^64. -/
def u64Mod : Nat := 2 ^ 64

/-- Go `uint64` subtraction `a - b` with wraparound (operands assumed
reduced mod 2^64). -/
def goSub64 (a b : Nat) : Nat := (a + u64Mod - b % u64Mod) % u64Mod

/-- Nonce constant `0xffffffffffffffff` (8 bytes) voting to add a signer. -/
def nonceAuthVote : Nat := 0xffffffffffffffff

/-- Nonce constant `0x0000000000000000` (8 bytes) voting to drop a signer. -/
def nonceDropVote : Nat := 0

/-- Chain configuration options read by the engine (`params.ChainConfig`
plus its `Clique` section). -/
structure Config where
  period : Nat
  epoch : Nat
  span : Nat
  erawanBlock : Option Nat
  chaophrayaBlock : Option Nat
  deriving Repr, DecidableEq

/-- Modelled from the spec: `ChaophrayaBlock` is "the height at which PoSA
activates" (the standard go-ethereum fork predicate `isForked`, whose body
is outside the provided sources): the fork is active at height `n` iff an
activation height is configured and is ≤ `n`. -/
def Config.IsChaophraya (cfg : Config) (n : Nat) : Bool :=
  match cfg.chaophrayaBlock with
  | some cb => cb ≤ n
  | none => false

/-- Modelled from the spec: `ErawanBlock` is "the height at which the
vote-in-MixDigest rule activates"; same fork predicate shape. -/
def Config.IsErawan (cfg : Config) (n : Nat) : Bool :=
  match cfg.erawanBlock with
  | some eb => eb ≤ n
  | none => false

/-- The three PoSA system-contract addresses carried by a snapshot
(`ctypes.SystemContracts`). -/
structure SystemContracts where
  stakeManager : Address
  slashManager : Address
  officialNode : Address
  deriving Repr, DecidableEq

/-- A span validator with its voting power (`ctypes.Validator`;
`VotingPower` is `uint64`). -/
structure Validator where
  address : Address
  votingPower : Nat
  deriving Repr, DecidableEq

/-- The fields of the authorization snapshot that seal verification and
finalization read: the authorized signer set (`Signers`, a Go map whose
key set we keep as a list), the recent-signer window (`Recents`, a map
from block height to signer kept as an entry list) and the active system
contracts.  The snapshot type itself lives in `snapshot.go`, outside the
provided sources; the fields and their use are taken from the verifier
and finalizer code that reads them. -/
structure Snapshot where
  number : Nat
  signers : List Address
  recents : List (Nat × Address)
  systemContracts : SystemContracts
  deriving Repr, DecidableEq

/-- Insertion of an address into an ascending list (helper for the
sorted signer view; structural recursion so proofs can evaluate it). -/
def insertAsc (a : Nat) : List Nat → List Nat
  | [] => [a]
  | b :: bs => if a ≤ b then a :: b :: bs else b :: insertAsc a bs

/-- Ascending insertion sort over addresses. -/
def sortAsc : List Nat → List Nat
  | [] => []
  | a :: as => insertAsc a (sortAsc as)

/-- Modelled from the spec: `snapshot.signers()` "retrieves the list of
authorized signers in ascending order" (the snapshot's sorted signer
list used for checkpoint payloads and in-turn computation). -/
def Snapshot.signersSorted (s : Snapshot) : List Address :=
  sortAsc s.signers

/-- Modelled from the spec: a signer is in-turn for block `number` iff
`Signers[number mod |Signers|] == signer` over the ascending signer
list (`snap.inturn`, defined in `snapshot.go` outside the provided
sources). -/
def Snapshot.inturn (s : Snapshot) (number : Nat) (signer : Address) : Bool :=
  let ss := s.signersSorted
  match ss.get? (number % ss.length) with
  | some a => a == signer
  | none => false

/-- Modelled from the spec: `snap.getInturnSigner(N)` returns the signer
who is in-turn at height `N`, i.e. `Signers[N mod |Signers|]` of the
ascending signer list. -/
def Snapshot.getInturnSigner (s : Snapshot) (number : Nat) : Address :=
  let ss := s.signersSorted
  ss.getD (number % ss.length) 0

/-- The engine's typed error values (`errUnknownBlock`,
`errUnauthorizedSigner`, ... in clique.go).  `sigRecoverFailed` stands
for an error propagated out of `ecrecover`; `contractCallError` for an
error returned by a contract-client call; the `systemTx*` constructors
for the `errors.New` values produced by the system-transaction
machinery. -/
inductive CliqueError where
  | unknownBlock
  | invalidCheckpointBeneficiary
  | invalidVote
  | invalidCheckpointVote
  | missingVanity
  | missingSignature
  | extraSigners
  | invalidCheckpointSigners
  | mismatchingCheckpointSigners
  | mismatchingSpanValidators
  | invalidMixDigest
  | invalidUncleHash
  | invalidDifficulty
  | wrongDifficulty
  | invalidTimestamp
  | futureBlock
  | unauthorizedSigner
  | recentlySigned
  | invalidSpan
  | gasLimitTooHigh
  | sigRecoverFailed
  | contractCallError
  | unknownValidators
  | systemTxMissing
  | systemTxHashMismatch
  | systemTxsRemaining
  deriving Repr, DecidableEq

/-- The header fields the embedded checks read (`types.Header`).
`number` and `difficulty` are `*big.Int` in Go and hence optional;
`extra` is the raw byte list; `nonce` is the 8-byte nonce as a value
below 2^64; `mixDigest` is the 32-byte digest as a value below 2^256. -/
structure Header where
  number : Option Nat
  nonce : Nat
  difficulty : Option Nat
  coinbase : Address
  mixDigest : Nat
  extra : List Nat
  time : Nat
  gasLimit : Nat
  gasUsed : Nat
  uncleHashIsEmptyHash : Bool
  deriving Repr, DecidableEq

/-- Value of `header.Number.Uint64()` after the nil check. -/
def Header.num (h : Header) : Nat := h.number.getD 0

/-- Predicate `isInturnDifficulty`: the difficulty equals `diffInTurn = 2`
(`nil` compares unequal). -/
def isInturnDifficulty (diff : Option Nat) : Bool := diff == some 2

/-- Predicate `isNoturnDifficulty`: the difficulty equals `diffNoTurn = 1`. -/
def isNoturnDifficulty (diff : Option Nat) : Bool := diff == some 1

/-- Predicate `isOnEpochStart`: the height is divisible by the configured epoch
length. -/
def isOnEpochStart (cfg : Config) (number : Nat) : Bool :=
  number % cfg.epoch == 0

/-- Predicate `isNextBlockPoS`: the next block is past the Chaophraya activation. -/
def isNextBlockPoS (cfg : Config) (number : Nat) : Bool :=
  cfg.IsChaophraya (number + 1)

/-- Predicate `isSpanCommitmentBlock`: PoSA is active and
`number mod Span == Span/2 + 1`. -/
def isSpanCommitmentBlock (cfg : Config) (number : Nat) : Bool :=
  cfg.IsChaophraya number && (number % cfg.span == cfg.span / 2 + 1)

/-- Predicate `isSpanFirstBlock`: PoSA is active and `number mod Span == 0`. -/
def isSpanFirstBlock (cfg : Config) (number : Nat) : Bool :=
  cfg.IsChaophraya number && (number % cfg.span == 0)

/-- Predicate `isNextBlockASpanFirstBlock`: the next height is a span first block. -/
def isNextBlockASpanFirstBlock (cfg : Config) (number : Nat) : Bool :=
  cfg.IsChaophraya (number + 1) && ((number + 1) % cfg.span == 0)

/-- Predicate `isNextBlockExactChaophrayaBlock`: the next height is exactly the
configured Chaophraya activation height. -/
def isNextBlockExactChaophrayaBlock (cfg : Config) (number : Nat) : Bool :=
  cfg.IsChaophraya (number + 1) && (cfg.chaophrayaBlock == some (number + 1))

/-- Predicate `needToUpdateValidatorList`: the header must carry the validator
payload (its successor starts a span, or is the exact activation
height). -/
def needToUpdateValidatorList (cfg : Config) (number : Nat) : Bool :=
  isNextBlockASpanFirstBlock cfg number || isNextBlockExactChaophrayaBlock cfg number

/-- Result of `ecrecover(header, c.signatures)`: either the recovered
signer address or a propagated error.  The recovery itself is
secp256k1 cryptography and is passed to the verifiers as an input. -/
abbrev RecoverResult := Except CliqueError Address

/-- Recent-signer check of `verifySeal`: the loop over `snap.Recents`
returns `errRecentlySigned` iff some retained entry maps a height
`seen` to this signer with `seen > number - limit` where
`limit = |Signers|/2 + 1` (uint64 subtraction). -/
def recentlySignedCheck (snap : Snapshot) (number : Nat) (signer : Address) : Bool :=
  let limit := snap.signers.length / 2 + 1
  snap.recents.any (fun p => p.2 == signer && decide (goSub64 number limit < p.1))

/-- Difficulty/turn check shared by `verifySeal` and `verifySealPoS`
(the `!c.fakeDiff` block): in-turn signers must carry difficulty 2,
out-of-turn signers difficulty 1. -/
def sealDifficultyCheck (fakeDiff : Bool) (snap : Snapshot) (h : Header)
    (signer : Address) : Except CliqueError Unit :=
  if fakeDiff then .ok () else
  let inturn := snap.inturn h.num signer
  if inturn && !isInturnDifficulty h.difficulty then .error .wrongDifficulty
  else if !inturn && !isNoturnDifficulty h.difficulty then .error .wrongDifficulty
  else .ok ()

/-- Embedding of `verifySeal` (pre-Chaophraya seal rule): reject height
0, propagate `ecrecover` failure, reject signers outside `Signers`,
reject recent signers, then check the declared difficulty against the
signer's turn. -/
def verifySeal (fakeDiff : Bool) (snap : Snapshot) (h : Header)
    (rec : RecoverResult) : Except CliqueError Unit :=
  if h.num == 0 then .error .unknownBlock else
  match rec with
  | .error e => .error e
  | .ok signer =>
    if signer ∈ snap.signers then
      if recentlySignedCheck snap h.num signer then .error .recentlySigned
      else sealDifficultyCheck fakeDiff snap h signer
    else .error .unauthorizedSigner

/-- Embedding of `verifySealPoS` (post-Chaophraya seal rule): like
`verifySeal` but the `OfficialNode` address is additionally authorized,
and there is no recent-signer check. -/
def verifySealPoS (fakeDiff : Bool) (snap : Snapshot) (h : Header)
    (rec : RecoverResult) : Except CliqueError Unit :=
  if h.num == 0 then .error .unknownBlock else
  match rec with
  | .error e => .error e
  | .ok signer =>
    if signer ∈ snap.signers ∨ signer = snap.systemContracts.officialNode then
      sealDifficultyCheck fakeDiff snap h signer
    else .error .unauthorizedSigner

/-- Tail of `verifyCascadingFields`: dispatch to the PoSA seal rule when
Chaophraya is active at this height, to the PoA rule otherwise. -/
def verifySealDispatch (cfg : Config) (fakeDiff : Bool) (snap : Snapshot)
    (h : Header) (rec : RecoverResult) : Except CliqueError Unit :=
  if cfg.IsChaophraya h.num then verifySealPoS fakeDiff snap h rec
  else verifySeal fakeDiff snap h rec

/-- Embedding of `getVoteAddr`: after Erawan the voted address sits in
the last 20 bytes of `MixDigest` (the guard slice
`MixDigest[12:12]` is empty, so `SetBytes` yields 0 and the branch
returning the address is always taken); before Erawan it is the
coinbase. -/
def getVoteAddr (cfg : Config) (h : Header) : Address :=
  if cfg.IsErawan h.num then h.mixDigest % 2 ^ 160 else h.coinbase

/-- Extra-data prefix reserved for the signer vanity (`extraVanity`). -/
def extraVanity : Nat := 32

/-- Extra-data suffix holding the seal signature (`extraSeal`,
`crypto.SignatureLength`). -/
def extraSeal : Nat := 65

/-- Byte length of the three PoS contract addresses embedded at span
transitions (`contractBytesLength`). -/
def contractBytesLength : Nat := 60

/-- Maximum gas limit, `params.MaxGasLimit = 2^63 - 1`. -/
def maxGasLimit : Nat := 2 ^ 63 - 1

/-- Embedding of the standalone part of `verifyHeader` (everything
before `verifyCascadingFields`): nil/future checks, checkpoint
beneficiary and mix-digest rules, the nonce vote rules, extra-data
layout, uncle hash, standalone difficulty sanity and the gas-limit cap.
The external `misc.VerifyForkHashes` call is treated as succeeding.
`signersBytes` is a Go `int` and may go negative on the PoSA
span-transition path, hence `Int` with Go's truncated `%`. -/
def verifyHeaderPre (cfg : Config) (now : Nat) (h : Header) : Except CliqueError Unit :=
  match h.number with
  | none => .error .unknownBlock
  | some _ =>
    let number := h.num
    if now < h.time then .error .futureBlock else
    let checkpoint := isOnEpochStart cfg number
    let beneficiaryCheck : Except CliqueError Unit :=
      if cfg.IsErawan number then
        if checkpoint && getVoteAddr cfg h != 0 then .error .invalidCheckpointBeneficiary
        else .ok ()
      else
        if checkpoint && h.coinbase != 0 then .error .invalidCheckpointBeneficiary
        else if h.mixDigest != 0 then .error .invalidMixDigest
        else .ok ()
    match beneficiaryCheck with
    | .error e => .error e
    | .ok () =>
    if h.nonce != nonceAuthVote && h.nonce != nonceDropVote then .error .invalidVote else
    if checkpoint && h.nonce != nonceDropVote then .error .invalidCheckpointVote else
    if h.extra.length < extraVanity then .error .missingVanity else
    if h.extra.length < extraVanity + extraSeal then .error .missingSignature else
    let signersBytes : Int := (h.extra.length : Int) - extraVanity - extraSeal
    let checkpoint' :=
      if isNextBlockPoS cfg number then needToUpdateValidatorList cfg number
      else checkpoint
    let signerBytesLength : Int :=
      if isNextBlockPoS cfg number && checkpoint' then 40 else 20
    let signersBytes' : Int :=
      if isNextBlockPoS cfg number && checkpoint' then signersBytes - contractBytesLength
      else signersBytes
    if !checkpoint' && signersBytes' != 0 then .error .extraSigners else
    if checkpoint' && Int.tmod signersBytes' signerBytesLength != 0 then
      .error .invalidCheckpointSigners else
    if !h.uncleHashIsEmptyHash then .error .invalidUncleHash else
    if number > 0 && !cfg.IsChaophraya number
        && !(isInturnDifficulty h.difficulty || isNoturnDifficulty h.difficulty) then
      .error .invalidDifficulty else
    if maxGasLimit < h.gasLimit then .error .gasLimitTooHigh else
    .ok ()

/-- A system transaction, abstracted to the hash the engine compares
(`cc.signer.Hash(tx)`). -/
structure Tx where
  hash : Hash
  deriving Repr, DecidableEq

/-- Embedding of the verification path of `ContractClient.applyTransaction`
(`mining == false`): the expected transaction's hash must match the
head of the received system-transaction stream; an empty stream is an
error, a hash mismatch is an error, and a match consumes the head
(`*receivedTxs = (*receivedTxs)[1:]`). -/
def applyTransactionVerify (expectedHash : Hash) (receivedTxs : List Tx) :
    Except CliqueError (List Tx) :=
  match receivedTxs with
  | [] => .error .systemTxMissing
  | t :: rest =>
    if t.hash == expectedHash then .ok rest else .error .systemTxHashMismatch

/-- Big-endian byte encoding of a natural number into `width` bytes
(`common.Address.Bytes`, `Validator.PowerBytes`). -/
def natToBytesBE (width n : Nat) : List Nat :=
  (List.range width).map (fun i => n / 256 ^ (width - 1 - i) % 256)

/-- Embedding of `Validator.HeaderBytes`: the 20-byte address followed
by the 20-byte big-endian voting power. -/
def validatorHeaderBytes (v : Validator) : List Nat :=
  natToBytesBE 20 v.address ++ natToBytesBE 20 v.votingPower

/-- Concatenated `HeaderBytes` of a validator list (`validatorsBytes`
in `Finalize`). -/
def validatorsBytes (vs : List Validator) : List Nat :=
  (vs.map validatorHeaderBytes).flatten

/-- Middle section of the extra-data compared against the validator
payload in `Finalize`: `header.Extra[extraVanity : len-extraSeal-contractBytesLength]`.
Go panics when the slice bounds are invalid; the embedding clamps. -/
def spanExtraMiddle (h : Header) : List Nat :=
  (h.extra.take (h.extra.length - extraSeal - contractBytesLength)).drop extraVanity

/-- External inputs of `Finalize` in verification mode: the parent
snapshot (fetched via `c.snapshot`), the `ecrecover` result, the
contract-client call results, and the hashes of the three synthetic
system transactions the contract client would construct
(`commitSpan`, `slash`, `distributeReward`). -/
structure FinalizeEnv where
  snap : Snapshot
  sigRecover : RecoverResult
  getCurrentValidators : Except Unit (List Validator)
  commitSpanHash : Hash
  currentSpan : Except Unit Nat
  isSlashed : Except Unit Bool
  slashHash : Hash
  systemBalance : Nat
  distributeHash : Hash

/-- Signer used by `Finalize`: `blockSigner, _ := ecrecover(...)`
ignores the error, leaving the zero address. -/
def blockSignerOf (env : FinalizeEnv) : Address :=
  match env.sigRecover with
  | .ok a => a
  | .error _ => 0

/-- Validator-payload cross-check of `Finalize` on span-transition
headers: the embedded bytes must equal what
`contractClient.GetCurrentValidators` reports. -/
def validatorListCheck (cfg : Config) (env : FinalizeEnv) (h : Header) :
    Except CliqueError Unit :=
  if needToUpdateValidatorList cfg h.num then
    match env.getCurrentValidators with
    | .error _ => .error .contractCallError
    | .ok vs =>
      if spanExtraMiddle h == validatorsBytes vs then .ok ()
      else .error .mismatchingSpanValidators
  else .ok ()

/-- Embedding of `c.slash` in verification mode: propagate
`GetCurrentSpan` / `IsSlashed` failures, skip when already slashed,
otherwise emit the synthetic slash transaction (matched against the
stream). -/
def slashStep (env : FinalizeEnv) (txs : List Tx) : Except CliqueError (List Tx) :=
  match env.currentSpan with
  | .error _ => .error .contractCallError
  | .ok _ =>
    match env.isSlashed with
    | .error _ => .error .contractCallError
    | .ok true => .ok txs
    | .ok false => applyTransactionVerify env.slashHash txs

/-- Embedding of `c.distributeIncoming` in verification mode: a zero
system-reward balance is a no-op, otherwise the synthetic
distribute-reward transaction is emitted (matched against the
stream). -/
def distributeStep (env : FinalizeEnv) (txs : List Tx) : Except CliqueError (List Tx) :=
  if env.systemBalance == 0 then .ok txs
  else applyTransactionVerify env.distributeHash txs

/-- PoSA body of `Finalize` in verification mode, threading the received
system-transaction stream through the synthetic transactions in source
order and returning the remaining stream: the difficulty-1 signer
check, the span-transition validator cross-check, the span commitment
(failure mapped to `errInvalidSpan`), the out-of-turn coinbase check,
slashing, and reward distribution. -/
def finalizeSteps (cfg : Config) (env : FinalizeEnv) (h : Header) (txs : List Tx) :
    Except CliqueError (List Tx) :=
  let official := env.snap.systemContracts.officialNode
  if isNoturnDifficulty h.difficulty && blockSignerOf env != official then
    .error .invalidDifficulty
  else
    match validatorListCheck cfg env h with
    | .error e => .error e
    | .ok () =>
      let step1 : Except CliqueError (List Tx) :=
        if isSpanCommitmentBlock cfg h.num then
          match applyTransactionVerify env.commitSpanHash txs with
          | .error _ => .error .invalidSpan
          | .ok rest => .ok rest
        else .ok txs
      match step1 with
      | .error e => .error e
      | .ok txs1 =>
        if !isInturnDifficulty h.difficulty && h.coinbase != official then
          .error .unauthorizedSigner
        else
          let step2 : Except CliqueError (List Tx) :=
            if !isInturnDifficulty h.difficulty && h.coinbase == official then
              slashStep env txs1
            else .ok txs1
          match step2 with
          | .error e => .error e
          | .ok txs2 => distributeStep env txs2

/-- Embedding of `Finalize` in verification mode: outside PoSA it only
recomputes roots; inside PoSA it runs `finalizeSteps` and finally
rejects the block when received system transactions remain
(`len(*systemTxs) > 0`). -/
def Finalize (cfg : Config) (env : FinalizeEnv) (h : Header) (systemTxs : List Tx) :
    Except CliqueError Unit :=
  if !cfg.IsChaophraya h.num then .ok ()
  else
    match finalizeSteps cfg env h systemTxs with
    | .error e => .error e
    | .ok rest => if rest.length > 0 then .error .systemTxsRemaining else .ok ()

/-- Accumulating loop of `createWeightedRanges`; the running
`totalWeight` is a `uint64` and wraps. -/
def createWeightedRangesGo : List Nat → Nat → List Nat × Nat
  | [], total => ([], total)
  | w :: ws, total =>
    let t := (total + w) % u64Mod
    let (rest, tf) := createWeightedRangesGo ws t
    (t :: rest, tf)

/-- Embedding of `createWeightedRanges`: converts `[1, 2, 3]` into
cumulative form `[1, 3, 6]` and returns the accumulated total, with
`uint64` wraparound. -/
def createWeightedRanges (weights : List Nat) : List Nat × Nat :=
  createWeightedRangesGo weights 0

/-- Specification-side cumulative sums, following the spec's words:
"Build cumulative weight ranges `[w0, w0+w1, ...]`" with exact
(unbounded) arithmetic.  Used to compare `createWeightedRanges`
against the spec. -/
def cumulativeWeightsFrom : List Nat → Nat → List Nat
  | [], _ => []
  | w :: ws, acc => (acc + w) :: cumulativeWeightsFrom ws (acc + w)

/-- Exact cumulative weight list per the spec. -/
def cumulativeWeights (ws : List Nat) : List Nat :=
  cumulativeWeightsFrom ws 0

/-- Loop of `binarySearch` over indices `l ≤ r < array.length`:
narrow `[l, r]` keeping the leftmost entry `≥ search` reachable. -/
def bsLoop (a : List Nat) (s : Nat) (l r : Nat) : Nat :=
  if hlt : l < r then
    let mid := (l + r) / 2
    if s ≤ a.getD mid 0 then bsLoop a s l mid else bsLoop a s (mid + 1) r
  else l
termination_by r - l
decreasing_by
  · omega
  · omega

/-- Embedding of `binarySearch`: `-1` on the empty array, otherwise the
index computed by the narrowing loop started at `[0, len-1]` (a Go
`int`). -/
def binarySearch (array : List Nat) (search : Nat) : Int :=
  if array.isEmpty then -1 else ((bsLoop array search 0 (array.length - 1) : Nat) : Int)

/-- Constant `math.MaxUint64 = 2^64 - 1`. -/
def maxUint64 : Nat := 2 ^ 64 - 1

/-- Rejection threshold of `randomRangeInclusive`:
`math.MaxUint64 - math.MaxUint64 % rangeLength - 1`; raw draws `≥` this
value are rejected and redrawn. -/
def maxAllowedValue (rangeLength : Nat) : Nat :=
  maxUint64 - maxUint64 % rangeLength - 1

/-- Rejection-sampling loop of `randomRangeInclusive`: redraw from the
stream until the raw value is accepted (below the threshold).  The Go
loop is unbounded; `fuel` bounds it in the embedding, `none` meaning
the fuel ran out while every draw was rejected. -/
def rriLoop (rangeLength : Nat) (rng : Nat → Nat) : Nat → Nat → Option (Nat × Nat)
  | _, 0 => none
  | pos, fuel + 1 =>
    let v := rng pos % u64Mod
    if v < maxAllowedValue rangeLength then some (v, pos + 1)
    else rriLoop rangeLength rng (pos + 1) fuel

/-- Embedding of `randomRangeInclusive`: `max` when the range is
degenerate, otherwise `min + v % rangeLength` for the first accepted
raw draw `v`, also returning the next stream position. -/
def randomRangeInclusive (lo hi : Nat) (rng : Nat → Nat) (pos fuel : Nat) :
    Option (Nat × Nat) :=
  if hi ≤ lo then some (hi, pos)
  else
    let rangeLength := hi - lo + 1
    match rriLoop rangeLength rng pos fuel with
    | none => none
    | some (v, pos') => some (lo + v % rangeLength, pos')

/-- Go slice indexing with an `int` index, total: out-of-range (the Go
panic) is `none`. -/
def listGetInt {α : Type} (l : List α) (i : Int) : Option α :=
  if i < 0 then none else l.get? i.toNat

/-- Big-endian value of a byte list. -/
def bytesToNatBE (bs : List Nat) : Nat :=
  bs.foldl (fun acc b => acc * 256 + b % 256) 0

/-- Seed derivation of `selectNextValidatorSet`:
`binary.BigEndian.Uint64` of the first 8 bytes of the seed block's hash
(via `ToBytes32`, which zero-pads short inputs). -/
def seedOfHash (hashBytes : List Nat) : Nat :=
  bytesToNatBE ((hashBytes ++ List.replicate 8 0).take 8)

/-- Selection loop of `selectNextValidatorSet`: `Span` iterations, each
drawing a target weight in `[1, totalVotingPower]`, binary-searching
the cumulative ranges and appending the validator at the found index
(`none` when a draw runs out of fuel or the index is out of bounds —
the Go code panics on the latter). -/
def selectLoop (validators : List Validator) (ranges : List Nat) (total : Nat)
    (rng : Nat → Nat) (fuel : Nat) : Nat → Nat → Option (List Validator)
  | 0, _ => some []
  | n + 1, pos =>
    (randomRangeInclusive 1 total rng pos fuel).bind fun tp =>
      (listGetInt validators (binarySearch ranges tp.1)).bind fun v =>
        (selectLoop validators ranges total rng fuel n tp.2).map fun rest => v :: rest

/-- Embedding of `selectNextValidatorSet`: derive the 64-bit seed from
the seed block's hash, seed the generator (`rngOf` maps a seed to the
deterministic `rand.Rand` draw stream), build the cumulative weight
ranges over the eligible validators' voting powers, then sample `span`
producers (the final `[:span]` slice of the Go code included). -/
def selectNextValidatorSet (rngOf : Nat → Nat → Nat) (seedHashBytes : List Nat)
    (validators : List Validator) (span : Nat) (fuel : Nat) : Option (List Validator) :=
  let seed := seedOfHash seedHashBytes
  let rng := rngOf seed
  let votingPower := validators.map (fun v => v.votingPower % u64Mod)
  let wr := createWeightedRanges votingPower
  (selectLoop validators wr.1 wr.2 rng fuel span 0).map fun producers =>
    producers.take span

/-! ## Shared concrete fixtures used by witnesses and counterexamples -/

/-- Fixture: system contracts with official node address 99. -/
def scW : SystemContracts := ⟨100, 101, 99⟩

/-- Fixture: snapshot at height 2 with signers 10 and 20, signer 20
recorded as recent at height 2. -/
def snapW : Snapshot := ⟨2, [10, 20], [(2, 20)], scW⟩

/-- Fixture: in-turn header at height 3 (difficulty 2, coinbase 20). -/
def hdrW : Header := ⟨some 3, 0, some 2, 20, 0, [], 0, 0, 0, true⟩

/-- Fixture: configuration with period 1, epoch 30000, span 50 and
Chaophraya active from genesis. -/
def cfgW : Config := ⟨1, 30000, 50, none, some 0⟩

/-! ## Lemmas -/

/-- The shared difficulty check only ever yields success or
`wrongDifficulty`. -/
theorem sealDifficultyCheck_cases (fd : Bool) (snap : Snapshot) (h : Header)
    (s : Address) :
    sealDifficultyCheck fd snap h s = .ok () ∨
      sealDifficultyCheck fd snap h s = .error .wrongDifficulty := by
  unfold sealDifficultyCheck
  by_cases h1 : fd = true
  · simp [h1]
  · simp only [h1, Bool.false_eq_true, if_false]
    by_cases h2 : (snap.inturn h.num s && !isInturnDifficulty h.difficulty) = true
    · simp [h2]
    · simp only [h2, Bool.false_eq_true, if_false]
      by_cases h3 : (!snap.inturn h.num s && !isNoturnDifficulty h.difficulty) = true
      · simp [h3]
      · simp [h3]

/-! ## C1 -/

/-- On an authorized signer, `verifySeal` cannot return
`UnauthorizedSigner`. -/
theorem verifySeal_mem_not_unauthorized (fakeDiff : Bool) (snap : Snapshot)
    (h : Header) (signer : Address) (hm : signer ∈ snap.signers) :
    verifySeal fakeDiff snap h (.ok signer) ≠ .error .unauthorizedSigner := by
  unfold verifySeal
  by_cases hz : (h.num == 0) = true
  · simp [hz]
  · simp only [Bool.not_eq_true] at hz
    simp only [hz, Bool.false_eq_true, if_false, hm, if_true]
    by_cases hrc : recentlySignedCheck snap h.num signer = true
    · simp [hrc]
    · simp only [hrc, Bool.false_eq_true, if_false]
      rcases sealDifficultyCheck_cases fakeDiff snap h signer with hc | hc <;> simp [hc]

/-- On a signer that is authorized or is the official node,
`verifySealPoS` cannot return `UnauthorizedSigner`. -/
theorem verifySealPoS_mem_not_unauthorized (fakeDiff : Bool) (snap : Snapshot)
    (h : Header) (signer : Address)
    (hm : signer ∈ snap.signers ∨ signer = snap.systemContracts.officialNode) :
    verifySealPoS fakeDiff snap h (.ok signer) ≠ .error .unauthorizedSigner := by
  unfold verifySealPoS
  by_cases hz : (h.num == 0) = true
  · simp [hz]
  · simp only [Bool.not_eq_true] at hz
    simp only [hz, Bool.false_eq_true, if_false, hm, if_true]
    rcases sealDifficultyCheck_cases fakeDiff snap h signer with hc | hc <;> simp [hc]

/-- C1: pre-Chaophraya, `verifySeal` returns `UnauthorizedSigner`
exactly when the recovered signer is not in the snapshot's `Signers`
set; post-Chaophraya, `verifySealPoS` returns `UnauthorizedSigner`
exactly when the recovered signer is neither in `Signers` nor the
snapshot's `OfficialNode` address; hence any header whose seal
verification succeeds has its signer in `Signers`, or Chaophraya is
active and the signer is the `OfficialNode`. -/
theorem verifySeal_unauthorized_characterization (fakeDiff : Bool) (snap : Snapshot)
    (h : Header) (signer : Address) (cfg : Config) (hn : h.num ≠ 0) :
    (verifySeal fakeDiff snap h (.ok signer) = .error .unauthorizedSigner ↔
      signer ∉ snap.signers)
    ∧ (verifySealPoS fakeDiff snap h (.ok signer) = .error .unauthorizedSigner ↔
      (signer ∉ snap.signers ∧ signer ≠ snap.systemContracts.officialNode))
    ∧ (verifySealDispatch cfg fakeDiff snap h (.ok signer) = .ok () →
      signer ∈ snap.signers ∨
        (cfg.IsChaophraya h.num = true ∧ signer = snap.systemContracts.officialNode)) := by
  have hnum : (h.num == 0) = false := by simpa using hn
  refine ⟨⟨fun hEq => ?_, fun hm => ?_⟩, ⟨fun hEq => ?_, fun hm => ?_⟩, fun hok => ?_⟩
  · by_cases hm : signer ∈ snap.signers
    · exact absurd hEq (verifySeal_mem_not_unauthorized fakeDiff snap h signer hm)
    · exact hm
  · unfold verifySeal
    simp [hnum, hm]
  · constructor
    · intro hm
      exact verifySealPoS_mem_not_unauthorized fakeDiff snap h signer (Or.inl hm) hEq
    · intro hoff
      exact verifySealPoS_mem_not_unauthorized fakeDiff snap h signer (Or.inr hoff) hEq
  · unfold verifySealPoS
    simp [hnum, hm.1, hm.2]
  · unfold verifySealDispatch at hok
    by_cases hch : cfg.IsChaophraya h.num = true
    · simp only [hch, if_true] at hok
      unfold verifySealPoS at hok
      simp only [hnum, Bool.false_eq_true, if_false] at hok
      by_cases hmem : signer ∈ snap.signers ∨ signer = snap.systemContracts.officialNode
      · rcases hmem with hm | hm
        · exact Or.inl hm
        · exact Or.inr ⟨hch, hm⟩
      · simp [hmem] at hok
    · simp only [hch, Bool.false_eq_true, if_false] at hok
      unfold verifySeal at hok
      simp only [hnum, Bool.false_eq_true, if_false] at hok
      by_cases hmem : signer ∈ snap.signers
      · exact Or.inl hmem
      · simp [hmem] at hok

/-- Witness for C1 at a concrete snapshot, header and non-member
signer 30. -/
theorem verifySeal_unauthorized_characterization_witness :
    (verifySeal false snapW hdrW (.ok 30) = .error .unauthorizedSigner ↔
      (30 : Address) ∉ snapW.signers)
    ∧ (verifySealPoS false snapW hdrW (.ok 30) = .error .unauthorizedSigner ↔
      ((30 : Address) ∉ snapW.signers ∧ (30 : Address) ≠ snapW.systemContracts.officialNode))
    ∧ (verifySealDispatch cfgW false snapW hdrW (.ok 30) = .ok () →
      (30 : Address) ∈ snapW.signers ∨
        (cfgW.IsChaophraya hdrW.num = true ∧ 30 = snapW.systemContracts.officialNode)) :=
  verifySeal_unauthorized_characterization false snapW hdrW 30 cfgW (by decide)

/-! ## C2 -/

/-- Counterexample to C2: post-Chaophraya seal verification performs no
recency check.  Signer 20 appears in the snapshot's `Recents` window at
height 2 with `2 > 3 - (|Signers|/2 + 1) = 1`, yet `verifySealPoS`
accepts the in-turn header at height 3 instead of failing with
`RecentlySigned`. -/
theorem verifySealPoS_ignores_recents_counterexample :
    (2, 20) ∈ snapW.recents
    ∧ (20 : Address) ∈ snapW.signers
    ∧ goSub64 hdrW.num (snapW.signers.length / 2 + 1) < 2
    ∧ verifySealPoS false snapW hdrW (.ok 20) = .ok () := by
  refine ⟨by decide, by decide, by decide, ?_⟩
  rfl

/-- C2 amended: the recency rule is enforced by the pre-Chaophraya rule
only.  `verifySeal` fails with `RecentlySigned` whenever the recovered
signer is authorized and appears in the `Recents` window at a height
greater than `N - (|Signers|/2 + 1)` (uint64 arithmetic), while
`verifySealPoS` never returns `RecentlySigned`. -/
theorem verifySeal_recentlySigned_pre_chaophraya_only :
    (∀ (fakeDiff : Bool) (snap : Snapshot) (h : Header) (signer : Address),
      h.num ≠ 0 → signer ∈ snap.signers →
      (∃ p ∈ snap.recents,
        p.2 = signer ∧ goSub64 h.num (snap.signers.length / 2 + 1) < p.1) →
      verifySeal fakeDiff snap h (.ok signer) = .error .recentlySigned)
    ∧ (∀ (fakeDiff : Bool) (snap : Snapshot) (h : Header) (signer : Address),
      verifySealPoS fakeDiff snap h (.ok signer) ≠ .error .recentlySigned) := by
  constructor
  · intro fakeDiff snap h signer hn hm hex
    have hnum : (h.num == 0) = false := by simpa using hn
    have hrc : recentlySignedCheck snap h.num signer = true := by
      rcases hex with ⟨p, hpmem, hpsig, hpseen⟩
      unfold recentlySignedCheck
      rw [List.any_eq_true]
      exact ⟨p, hpmem, by simp [hpsig, hpseen]⟩
    unfold verifySeal
    simp [hnum, hm, hrc]
  · intro fakeDiff snap h signer
    unfold verifySealPoS
    by_cases hz : (h.num == 0) = true
    · simp [hz]
    · simp only [Bool.not_eq_true] at hz
      simp only [hz, Bool.false_eq_true, if_false]
      by_cases hmem : signer ∈ snap.signers ∨ signer = snap.systemContracts.officialNode
      · simp only [hmem, if_true]
        rcases sealDifficultyCheck_cases fakeDiff snap h signer with hc | hc <;> simp [hc]
      · simp [hmem]

/-- Witness for the amended C2 at the concrete snapshot: signer 20 is
recent, so `verifySeal` fails with `RecentlySigned` while
`verifySealPoS` does not produce that error. -/
theorem verifySeal_recentlySigned_pre_chaophraya_only_witness :
    verifySeal false snapW hdrW (.ok 20) = .error .recentlySigned
    ∧ verifySealPoS false snapW hdrW (.ok 20) ≠ .error .recentlySigned :=
  ⟨verifySeal_recentlySigned_pre_chaophraya_only.1 false snapW hdrW 20
      (by decide) (by decide) ⟨(2, 20), by decide, by decide, by decide⟩,
    verifySeal_recentlySigned_pre_chaophraya_only.2 false snapW hdrW 20⟩

/-! ## C4 -/

/-- Fixture: configuration with span 50 and Chaophraya activating at
height 50. -/
def cfgC4 : Config := ⟨1, 30000, 50, none, some 50⟩

/-- Fixture: header at height 99 — the block immediately preceding span
first block 100 — carrying the auth-vote nonce and a well-formed
span-transition extra-data layout (32 vanity + 0 validators + 60
contract bytes + 65 seal bytes). -/
def hdrC4 : Header :=
  ⟨some 99, nonceAuthVote, some 2, 0, 0, List.replicate 157 0, 0, 0, 0, true⟩

set_option maxRecDepth 4000 in
/-- Counterexample to C4: height 99 is a span-transition
(validator-list-update) block for `cfgC4` and is not an epoch start;
its nonce is the auth-vote constant, yet the standalone `verifyHeader`
checks accept it — in particular they do not return
`InvalidCheckpointVote` (the checkpoint flag is recomputed for span
transitions only after the nonce checks have run). -/
theorem verifyHeaderPre_spanTransition_authVote_counterexample :
    needToUpdateValidatorList cfgC4 hdrC4.num = true
    ∧ isOnEpochStart cfgC4 hdrC4.num = false
    ∧ hdrC4.nonce = nonceAuthVote
    ∧ verifyHeaderPre cfgC4 1000 hdrC4 = .ok () := by
  refine ⟨by decide, by decide, by decide, ?_⟩
  rfl

set_option maxHeartbeats 1600000 in
/-- C4 amended: the `InvalidCheckpointVote` rejection is tied to
epoch-start checkpoint blocks only — on any header whose height is not
divisible by `Epoch`, the standalone `verifyHeader` checks never return
`InvalidCheckpointVote`, span-transition block or not. -/
theorem verifyHeaderPre_checkpointVote_only_on_epoch_start (cfg : Config) (now : Nat)
    (h : Header) (hep : isOnEpochStart cfg h.num = false) :
    verifyHeaderPre cfg now h ≠ .error .invalidCheckpointVote := by
  unfold verifyHeaderPre
  rcases hnb : h.number with _ | n
  · simp
  · simp only [hep, Bool.false_eq_true, if_false, Bool.false_and]
    split_ifs <;> simp_all

/-- Witness for the amended C4 at the concrete non-epoch header. -/
theorem verifyHeaderPre_checkpointVote_only_on_epoch_start_witness :
    verifyHeaderPre cfgC4 1000 hdrC4 ≠ .error .invalidCheckpointVote :=
  verifyHeaderPre_checkpointVote_only_on_epoch_start cfgC4 1000 hdrC4 (by decide)

/-! ## C5 -/

/-- C5: in PoSA mode, `Finalize` rejects any block carrying the
out-of-turn difficulty 1 whose seal signer is not the snapshot's
`OfficialNode`, with `InvalidDifficulty`. -/
theorem finalize_noturn_requires_official_signer (cfg : Config) (env : FinalizeEnv)
    (h : Header) (txs : List Tx) (signer : Address)
    (hch : cfg.IsChaophraya h.num = true)
    (hnt : isNoturnDifficulty h.difficulty = true)
    (hrec : env.sigRecover = .ok signer)
    (hne : signer ≠ env.snap.systemContracts.officialNode) :
    Finalize cfg env h txs = .error .invalidDifficulty := by
  have hsig : blockSignerOf env = signer := by
    unfold blockSignerOf
    rw [hrec]
  unfold Finalize finalizeSteps
  simp [hch, hnt, hsig, hne]

/-- Witness for C5: an out-of-turn header at height 3 sealed by signer
20, who is not official node 99, is rejected. -/
theorem finalize_noturn_requires_official_signer_witness :
    Finalize cfgW ⟨snapW, .ok 20, .ok [], 7, .ok 1, .ok false, 8, 0, 9⟩
      ⟨some 3, 0, some 1, 20, 0, [], 0, 0, 0, true⟩ [] = .error .invalidDifficulty :=
  finalize_noturn_requires_official_signer cfgW
    ⟨snapW, .ok 20, .ok [], 7, .ok 1, .ok false, 8, 0, 9⟩
    ⟨some 3, 0, some 1, 20, 0, [], 0, 0, 0, true⟩ [] 20
    (by decide) (by decide) rfl (by decide)

/-! ## C6 -/

/-- C6: the synthetic `commitSpan` transaction is emitted exactly on
span-commitment heights.  First, a height is a span-commitment block
iff PoSA is active there and `height mod Span = Span/2 + 1`.  Second,
on any other height `Finalize` never consults the expected `commitSpan`
transaction (its result is independent of that transaction's hash).
Third, when the span-commitment step fails on a commitment block,
`Finalize` rejects the block with `InvalidSpan`. -/
theorem finalize_commitSpan_exactly_on_commitment_blocks (cfg : Config) :
    (∀ n, isSpanCommitmentBlock cfg n = true ↔
      (cfg.IsChaophraya n = true ∧ n % cfg.span = cfg.span / 2 + 1))
    ∧ (∀ (env : FinalizeEnv) (h : Header) (txs : List Tx) (x : Hash),
      isSpanCommitmentBlock cfg h.num = false →
      Finalize cfg { env with commitSpanHash := x } h txs = Finalize cfg env h txs)
    ∧ (∀ (env : FinalizeEnv) (h : Header) (txs : List Tx) (e : CliqueError),
      cfg.IsChaophraya h.num = true →
      (isNoturnDifficulty h.difficulty &&
        blockSignerOf env != env.snap.systemContracts.officialNode) = false →
      validatorListCheck cfg env h = .ok () →
      isSpanCommitmentBlock cfg h.num = true →
      applyTransactionVerify env.commitSpanHash txs = .error e →
      Finalize cfg env h txs = .error .invalidSpan) := by
  refine ⟨fun n => ?_, fun env h txs x hsc => ?_, fun env h txs e hch hno hvl hsc happ => ?_⟩
  · unfold isSpanCommitmentBlock
    constructor
    · intro hb
      rcases Bool.and_eq_true_iff.mp hb with ⟨h1, h2⟩
      exact ⟨h1, by simpa using h2⟩
    · intro ⟨h1, h2⟩
      exact Bool.and_eq_true_iff.mpr ⟨h1, by simpa using h2⟩
  · unfold Finalize finalizeSteps validatorListCheck slashStep distributeStep
    simp only [hsc, Bool.false_eq_true, if_false]
    rfl
  · unfold Finalize finalizeSteps
    simp [hch, hno, hvl, hsc, happ]

/-- Witness for C6: the iff at height 26 (span 50), hash-independence
at non-commitment height 1, and the `InvalidSpan` rejection when the
received stream head does not match the expected `commitSpan`
transaction at commitment height 26. -/
theorem finalize_commitSpan_exactly_on_commitment_blocks_witness :
    (isSpanCommitmentBlock cfgW 26 = true ↔
      (cfgW.IsChaophraya 26 = true ∧ 26 % cfgW.span = cfgW.span / 2 + 1))
    ∧ Finalize cfgW
        { (⟨snapW, .ok 20, .ok [], 7, .ok 1, .ok false, 8, 0, 9⟩ : FinalizeEnv) with
            commitSpanHash := 123 }
        ⟨some 1, 0, some 2, 20, 0, [], 0, 0, 0, true⟩ []
      = Finalize cfgW ⟨snapW, .ok 20, .ok [], 7, .ok 1, .ok false, 8, 0, 9⟩
        ⟨some 1, 0, some 2, 20, 0, [], 0, 0, 0, true⟩ []
    ∧ Finalize cfgW ⟨snapW, .ok 20, .ok [], 7, .ok 1, .ok false, 8, 0, 9⟩
        ⟨some 26, 0, some 2, 20, 0, [], 0, 0, 0, true⟩ [⟨8⟩]
      = .error .invalidSpan :=
  ⟨(finalize_commitSpan_exactly_on_commitment_blocks cfgW).1 26,
    (finalize_commitSpan_exactly_on_commitment_blocks cfgW).2.1
      ⟨snapW, .ok 20, .ok [], 7, .ok 1, .ok false, 8, 0, 9⟩
      ⟨some 1, 0, some 2, 20, 0, [], 0, 0, 0, true⟩ [] 123 (by decide),
    (finalize_commitSpan_exactly_on_commitment_blocks cfgW).2.2
      ⟨snapW, .ok 20, .ok [], 7, .ok 1, .ok false, 8, 0, 9⟩
      ⟨some 26, 0, some 2, 20, 0, [], 0, 0, 0, true⟩ [⟨8⟩]
      .systemTxHashMismatch (by decide) (by decide) rfl (by decide) rfl⟩

/-! ## C3 -/

/-- C3: during verification, each expected synthetic system transaction
is matched by hash against the head of the received stream — an empty
stream errors, a mismatching head errors, a matching head is consumed —
and a non-empty stream left over after the finalization steps makes
`Finalize` reject the block. -/
theorem finalize_systemTx_stream_matching :
    (∀ expectedHash : Hash,
      applyTransactionVerify expectedHash [] = .error .systemTxMissing)
    ∧ (∀ (expectedHash : Hash) (t : Tx) (rest : List Tx), t.hash ≠ expectedHash →
      applyTransactionVerify expectedHash (t :: rest) = .error .systemTxHashMismatch)
    ∧ (∀ (expectedHash : Hash) (t : Tx) (rest : List Tx), t.hash = expectedHash →
      applyTransactionVerify expectedHash (t :: rest) = .ok rest)
    ∧ (∀ (cfg : Config) (env : FinalizeEnv) (h : Header) (txs rest : List Tx),
      cfg.IsChaophraya h.num = true →
      finalizeSteps cfg env h txs = .ok rest → rest ≠ [] →
      Finalize cfg env h txs = .error .systemTxsRemaining) := by
  refine ⟨fun e => rfl, fun e t rest hne => ?_, fun e t rest heq => ?_,
    fun cfg env h txs rest hch hsteps hne => ?_⟩
  · unfold applyTransactionVerify
    simp [hne]
  · unfold applyTransactionVerify
    simp [heq]
  · unfold Finalize
    rw [hch]
    simp only [Bool.not_true, Bool.false_eq_true, if_false]
    rw [hsteps]
    have : rest.length > 0 := List.length_pos.mpr hne
    simp [this]

/-- Witness for C3: empty stream, mismatching head, matching head, and
a finalization run at a plain PoSA height that leaves one received
transaction unconsumed. -/
theorem finalize_systemTx_stream_matching_witness :
    applyTransactionVerify 7 [] = .error .systemTxMissing
    ∧ applyTransactionVerify 7 [⟨8⟩] = .error .systemTxHashMismatch
    ∧ applyTransactionVerify 7 [⟨7⟩, ⟨8⟩] = .ok [⟨8⟩]
    ∧ Finalize cfgW ⟨snapW, .ok 20, .ok [], 7, .ok 1, .ok false, 8, 0, 9⟩
        ⟨some 1, 0, some 2, 20, 0, [], 0, 0, 0, true⟩ [⟨5⟩]
      = .error .systemTxsRemaining :=
  ⟨finalize_systemTx_stream_matching.1 7,
    finalize_systemTx_stream_matching.2.1 7 ⟨8⟩ [] (by decide),
    finalize_systemTx_stream_matching.2.2.1 7 ⟨7⟩ [⟨8⟩] rfl,
    finalize_systemTx_stream_matching.2.2.2 cfgW
      ⟨snapW, .ok 20, .ok [], 7, .ok 1, .ok false, 8, 0, 9⟩
      ⟨some 1, 0, some 2, 20, 0, [], 0, 0, 0, true⟩ [⟨5⟩] [⟨5⟩]
      (by decide) rfl (by decide)⟩

/-! ## C7 -/

/-- Each successful iteration of the selection loop contributes exactly
one producer, so a successful run of `n` iterations returns `n`
producers. -/
theorem selectLoop_length (validators : List Validator) (ranges : List Nat)
    (total : Nat) (rng : Nat → Nat) (fuel : Nat) :
    ∀ (n pos : Nat) (l : List Validator),
      selectLoop validators ranges total rng fuel n pos = some l → l.length = n := by
  intro n
  induction n with
  | zero =>
    intro pos l hl
    unfold selectLoop at hl
    simp only [Option.some_inj] at hl
    subst hl
    rfl
  | succ n ih =>
    intro pos l hl
    unfold selectLoop at hl
    rw [Option.bind_eq_some] at hl
    obtain ⟨tp, _, hl⟩ := hl
    rw [Option.bind_eq_some] at hl
    obtain ⟨v, _, hl⟩ := hl
    rw [Option.map_eq_some'] at hl
    obtain ⟨rest, hrec, hcons⟩ := hl
    subst hcons
    simp [ih tp.2 rest hrec]

/-- C7: `selectNextValidatorSet` is a deterministic function of the
seed-block hash (indeed of its leading 8 bytes), the eligible-validator
list, and the span length: equal inputs give element-wise equal
outputs; and every successfully returned producer sequence has length
exactly `span`. -/
theorem selectNextValidatorSet_deterministic_and_span_length :
    (∀ (rngOf : Nat → Nat → Nat) (h1 h2 : List Nat) (vals : List Validator)
        (span fuel : Nat),
      (h1 ++ List.replicate 8 0).take 8 = (h2 ++ List.replicate 8 0).take 8 →
      selectNextValidatorSet rngOf h1 vals span fuel =
        selectNextValidatorSet rngOf h2 vals span fuel)
    ∧ (∀ (rngOf : Nat → Nat → Nat) (hb : List Nat) (vals : List Validator)
        (span fuel : Nat) (l : List Validator),
      selectNextValidatorSet rngOf hb vals span fuel = some l → l.length = span) := by
  constructor
  · intro rngOf h1 h2 vals span fuel heq
    have hseed : seedOfHash h1 = seedOfHash h2 := by
      unfold seedOfHash
      rw [heq]
    unfold selectNextValidatorSet
    rw [hseed]
  · intro rngOf hb vals span fuel l hl
    unfold selectNextValidatorSet at hl
    rw [Option.map_eq_some'] at hl
    obtain ⟨producers, hsel, htake⟩ := hl
    subst htake
    have hlen := selectLoop_length vals _ _ (rngOf (seedOfHash hb)) fuel span 0
      producers hsel
    simp [List.length_take, hlen]

/-- Witness for C7: two hashes agreeing on their first 8 bytes select
the same producers, and a successful selection at span 2 has length
2. -/
theorem selectNextValidatorSet_deterministic_and_span_length_witness :
    selectNextValidatorSet (fun _ _ => 0) [1, 2, 3, 4, 5, 6, 7, 8, 9] [⟨5, 1⟩] 2 1 =
      selectNextValidatorSet (fun _ _ => 0) [1, 2, 3, 4, 5, 6, 7, 8, 200] [⟨5, 1⟩] 2 1
    ∧ ([⟨5, 1⟩, ⟨5, 1⟩] : List Validator).length = 2 :=
  ⟨selectNextValidatorSet_deterministic_and_span_length.1 (fun _ _ => 0)
      [1, 2, 3, 4, 5, 6, 7, 8, 9] [1, 2, 3, 4, 5, 6, 7, 8, 200] [⟨5, 1⟩] 2 1 (by decide),
    selectNextValidatorSet_deterministic_and_span_length.2 (fun _ _ => 0)
      [1, 2, 3, 4, 5, 6, 7, 8, 9] [⟨5, 1⟩] 2 1 [⟨5, 1⟩, ⟨5, 1⟩] (by
        simp [selectNextValidatorSet, selectLoop, randomRangeInclusive,
          binarySearch, bsLoop, listGetInt, createWeightedRanges,
          createWeightedRangesGo, seedOfHash, bytesToNatBE, u64Mod])⟩

/-! ## C10 -/

/-- C10: `binarySearch` on an empty array returns `-1`, and
`selectNextValidatorSet` with an empty eligible-validator list and a
positive span hits the out-of-bounds access `newValidators[-1]` — in
the total embedding the selection returns `none` (the Go code panics
instead of returning a typed error). -/
theorem selectNextValidatorSet_empty_validators_unreachable :
    (∀ s : Nat, binarySearch [] s = -1)
    ∧ (∀ (rngOf : Nat → Nat → Nat) (hb : List Nat) (span fuel : Nat),
      1 ≤ span → selectNextValidatorSet rngOf hb [] span fuel = none) := by
  constructor
  · intro s
    rfl
  · intro rngOf hb span fuel hspan
    rcases span with _ | m
    · exact absurd hspan (by decide)
    · simp [selectNextValidatorSet, selectLoop, randomRangeInclusive, binarySearch,
        listGetInt, createWeightedRanges, createWeightedRangesGo]

/-- Witness for C10 at span 1 with a concrete generator. -/
theorem selectNextValidatorSet_empty_validators_unreachable_witness :
    binarySearch [] 5 = -1
    ∧ selectNextValidatorSet (fun _ _ => 0) [] [] 1 1 = none :=
  ⟨selectNextValidatorSet_empty_validators_unreachable.1 5,
    selectNextValidatorSet_empty_validators_unreachable.2 (fun _ _ => 0) [] 1 1
      (by decide)⟩

/-! ## C8 -/

/-- Count of even numbers below `n`. -/
theorem card_evens_below (n : Nat) :
    ((Finset.range n).filter (fun v => v % 2 = 0)).card = (n + 1) / 2 := by
  induction n with
  | zero => rfl
  | succ n ih =>
    rw [Finset.range_succ, Finset.filter_insert]
    by_cases hp : n % 2 = 0
    · rw [if_pos hp, Finset.card_insert_of_not_mem (by simp), ih]
      omega
    · rw [if_neg hp, ih]
      omega

/-- Count of odd numbers below `n`. -/
theorem card_odds_below (n : Nat) :
    ((Finset.range n).filter (fun v => v % 2 = 1)).card = n / 2 := by
  induction n with
  | zero => rfl
  | succ n ih =>
    rw [Finset.range_succ, Finset.filter_insert]
    by_cases hp : n % 2 = 1
    · rw [if_pos hp, Finset.card_insert_of_not_mem (by simp), ih]
      omega
    · rw [if_neg hp, ih]
      omega

/-- C8 fails on the code: for range width `W = 2` the rejection
threshold of `randomRangeInclusive` is `2^64 - 3`, raw draws below it
are accepted and draws at or above it are rejected (shown on concrete
streams), yet the number of accepted raw values — `2^64 - 3` — is NOT
a multiple of 2: outcome `1` (`min + v % 2` for even `v`) arises from
one more accepted raw value than outcome `2`, so the draw is biased,
contradicting the function's own "unbiased" documentation. -/
theorem randomRangeInclusive_bias_at_width_two :
    maxAllowedValue 2 = 2 ^ 64 - 3
    ∧ rriLoop 2 (fun _ => 2 ^ 64 - 4) 0 1 = some (2 ^ 64 - 4, 1)
    ∧ rriLoop 2 (fun p => if p = 0 then 2 ^ 64 - 3 else 0) 0 2 = some (0, 2)
    ∧ ((Finset.range u64Mod).filter (fun v => v < maxAllowedValue 2)).card = 2 ^ 64 - 3
    ∧ ¬ 2 ∣ 2 ^ 64 - 3
    ∧ ((Finset.range u64Mod).filter
          (fun v => v < maxAllowedValue 2 ∧ 1 + v % 2 = 1)).card
        = ((Finset.range u64Mod).filter
          (fun v => v < maxAllowedValue 2 ∧ 1 + v % 2 = 2)).card + 1 := by
  have hM : maxAllowedValue 2 = 2 ^ 64 - 3 := by decide
  have hMlt : maxAllowedValue 2 ≤ u64Mod := by decide
  refine ⟨hM, by decide, by decide, ?_, by decide, ?_⟩
  · have hset : (Finset.range u64Mod).filter (fun v => v < maxAllowedValue 2)
        = Finset.range (maxAllowedValue 2) := by
      ext x
      simp only [Finset.mem_filter, Finset.mem_range]
      constructor
      · exact fun hx => hx.2
      · exact fun hx => ⟨lt_of_lt_of_le hx hMlt, hx⟩
    rw [hset, Finset.card_range, hM]
  · have hset1 : (Finset.range u64Mod).filter
        (fun v => v < maxAllowedValue 2 ∧ 1 + v % 2 = 1)
        = (Finset.range (maxAllowedValue 2)).filter (fun v => v % 2 = 0) := by
      ext x
      simp only [Finset.mem_filter, Finset.mem_range]
      constructor
      · intro hx
        exact ⟨hx.2.1, by omega⟩
      · intro hx
        exact ⟨lt_of_lt_of_le hx.1 hMlt, hx.1, by omega⟩
    have hset2 : (Finset.range u64Mod).filter
        (fun v => v < maxAllowedValue 2 ∧ 1 + v % 2 = 2)
        = (Finset.range (maxAllowedValue 2)).filter (fun v => v % 2 = 1) := by
      ext x
      simp only [Finset.mem_filter, Finset.mem_range]
      constructor
      · intro hx
        exact ⟨hx.2.1, by omega⟩
      · intro hx
        exact ⟨lt_of_lt_of_le hx.1 hMlt, hx.1, by omega⟩
    rw [hset1, hset2, card_evens_below, card_odds_below, hM]
    decide

/-! ## C9 -/

/-- Monotonicity of a non-decreasing list under `getD`. -/
theorem sorted_getD_mono (xs : List Nat) (hs : List.Sorted (· ≤ ·) xs) {i j : Nat}
    (hij : i ≤ j) (hj : j < xs.length) : xs.getD i 0 ≤ xs.getD j 0 := by
  have hi : i < xs.length := lt_of_le_of_lt hij hj
  have h := hs.rel_get_of_le (a := ⟨i, hi⟩) (b := ⟨j, hj⟩) hij
  simpa [List.getD_eq_getElem, hi, hj, List.get_eq_getElem] using h

/-- Unfolding of the `binarySearch` loop when the left half is kept. -/
theorem bsLoop_step_lt (a : List Nat) (s l r : Nat) (hlt : l < r)
    (hc : s ≤ a.getD ((l + r) / 2) 0) :
    bsLoop a s l r = bsLoop a s l ((l + r) / 2) := by
  conv_lhs => unfold bsLoop
  rw [dif_pos hlt]
  show (if s ≤ a.getD ((l + r) / 2) 0 then bsLoop a s l ((l + r) / 2)
    else bsLoop a s ((l + r) / 2 + 1) r) = bsLoop a s l ((l + r) / 2)
  rw [if_pos hc]

/-- Unfolding of the `binarySearch` loop when the right half is kept. -/
theorem bsLoop_step_ge (a : List Nat) (s l r : Nat) (hlt : l < r)
    (hc : ¬ s ≤ a.getD ((l + r) / 2) 0) :
    bsLoop a s l r = bsLoop a s ((l + r) / 2 + 1) r := by
  conv_lhs => unfold bsLoop
  rw [dif_pos hlt]
  show (if s ≤ a.getD ((l + r) / 2) 0 then bsLoop a s l ((l + r) / 2)
    else bsLoop a s ((l + r) / 2 + 1) r) = bsLoop a s ((l + r) / 2 + 1) r
  rw [if_neg hc]

/-- Unfolding of the `binarySearch` loop at a singleton interval. -/
theorem bsLoop_stop (a : List Nat) (s l r : Nat) (hge : ¬ l < r) :
    bsLoop a s l r = l := by
  conv_lhs => unfold bsLoop
  rw [dif_neg hge]

/-- Invariant of the `binarySearch` loop on a non-decreasing array:
started with every index below `l` strictly below the search value and
the entry at `r` at least the search value, it returns the least index
whose entry is `≥ search`. -/
theorem bsLoop_spec (a : List Nat) (s : Nat) (hs : List.Sorted (· ≤ ·) a)
    (l r : Nat) (hlr : l ≤ r) (hr : r < a.length)
    (hub : s ≤ a.getD r 0) (hlb : ∀ k < l, a.getD k 0 < s) :
    l ≤ bsLoop a s l r ∧ bsLoop a s l r ≤ r ∧ s ≤ a.getD (bsLoop a s l r) 0 ∧
      ∀ k < bsLoop a s l r, a.getD k 0 < s := by
  by_cases hlt : l < r
  · have hmidl : l ≤ (l + r) / 2 := by omega
    have hmidr : (l + r) / 2 < r := by omega
    by_cases hc : s ≤ a.getD ((l + r) / 2) 0
    · have hrec := bsLoop_spec a s hs l ((l + r) / 2) hmidl
        (lt_trans hmidr hr) hc hlb
      rw [bsLoop_step_lt a s l r hlt hc]
      exact ⟨hrec.1, le_trans hrec.2.1 (le_of_lt hmidr), hrec.2.2⟩
    · have hc' : a.getD ((l + r) / 2) 0 < s := by omega
      have hlb' : ∀ k < (l + r) / 2 + 1, a.getD k 0 < s := by
        intro k hk
        rcases lt_or_ge k l with hkl | hkl
        · exact hlb k hkl
        · exact lt_of_le_of_lt
            (sorted_getD_mono a hs (by omega) (lt_trans hmidr hr)) hc'
      have hrec := bsLoop_spec a s hs ((l + r) / 2 + 1) r (by omega) hr hub hlb'
      rw [bsLoop_step_ge a s l r hlt hc]
      exact ⟨by omega, hrec.2⟩
  · have heq : l = r := by omega
    rw [bsLoop_stop a s l r hlt]
    exact ⟨le_refl l, by omega, by rw [heq]; exact hub, hlb⟩
termination_by r - l
decreasing_by
  · omega
  · omega

/-- Exactness of the cumulative accumulation when the running total
never overflows. -/
theorem createWeightedRangesGo_exact : ∀ (ws : List Nat) (acc : Nat),
    acc + ws.sum < u64Mod →
    createWeightedRangesGo ws acc = (cumulativeWeightsFrom ws acc, acc + ws.sum) := by
  intro ws
  induction ws with
  | nil =>
    intro acc hlt
    simp [createWeightedRangesGo, cumulativeWeightsFrom]
  | cons w ws ih =>
    intro acc hlt
    rw [List.sum_cons] at hlt
    unfold createWeightedRangesGo cumulativeWeightsFrom
    have hmod : (acc + w) % u64Mod = acc + w := Nat.mod_eq_of_lt (by omega)
    rw [hmod]
    show ((acc + w) :: (createWeightedRangesGo ws (acc + w)).1,
        (createWeightedRangesGo ws (acc + w)).2)
      = ((acc + w) :: cumulativeWeightsFrom ws (acc + w), acc + (w + ws.sum))
    rw [ih (acc + w) (by omega), Nat.add_assoc]

/-- Counterexample to C9 as stated: with two weights of `2^63` the
running `uint64` total wraps, so `createWeightedRanges` returns
`([2^63, 0], 0)` instead of the exact prefix sums `[2^63, 2^64]` with
total `2^64`. -/
theorem createWeightedRanges_overflow_counterexample :
    createWeightedRanges [2 ^ 63, 2 ^ 63] = ([2 ^ 63, 0], 0)
    ∧ cumulativeWeights [2 ^ 63, 2 ^ 63] = [2 ^ 63, 2 ^ 64]
    ∧ ([2 ^ 63, 2 ^ 63] : List Nat).sum = 2 ^ 64
    ∧ (([2 ^ 63, 0], (0 : Nat)) : List Nat × Nat) ≠ ([2 ^ 63, 2 ^ 64], 2 ^ 64) := by
  refine ⟨by decide, by decide, by decide, by decide⟩

/-- C9 amended: provided the total weight fits in 64 bits (no `uint64`
overflow), `createWeightedRanges` returns exactly the spec's cumulative
prefix-sum list together with the sum of all weights; and on any
non-empty non-decreasing array, for any search value at most the last
(largest) entry, `binarySearch` returns the least index whose entry is
at least the search value. -/
theorem createWeightedRanges_exact_and_binarySearch_least :
    (∀ ws : List Nat, ws.sum < u64Mod →
      createWeightedRanges ws = (cumulativeWeights ws, ws.sum))
    ∧ (∀ (a : List Nat) (s : Nat), a ≠ [] → List.Sorted (· ≤ ·) a →
      s ≤ a.getD (a.length - 1) 0 →
      ∃ j : Nat, binarySearch a s = (j : Int) ∧ j < a.length ∧ s ≤ a.getD j 0 ∧
        ∀ k < j, a.getD k 0 < s) := by
  constructor
  · intro ws hlt
    have h := createWeightedRangesGo_exact ws 0 (by omega)
    simpa [createWeightedRanges, cumulativeWeights] using h
  · intro a s hne hs hlast
    have hlen : 0 < a.length := List.length_pos.mpr hne
    have hspec := bsLoop_spec a s hs 0 (a.length - 1) (by omega) (by omega) hlast
      (by omega)
    refine ⟨bsLoop a s 0 (a.length - 1), ?_, by omega, hspec.2.2⟩
    unfold binarySearch
    rw [if_neg (by simp [List.isEmpty_iff, hne])]

/-- Witness for the amended C9: weights `[1, 2, 3]` yield ranges
`[1, 3, 6]` with total 6, and searching `[1, 3, 6]` for 4 finds least
index 2. -/
theorem createWeightedRanges_exact_and_binarySearch_least_witness :
    createWeightedRanges [1, 2, 3] = (cumulativeWeights [1, 2, 3], ([1, 2, 3] : List Nat).sum)
    ∧ ∃ j : Nat, binarySearch [1, 3, 6] 4 = (j : Int) ∧ j < ([1, 3, 6] : List Nat).length ∧
        4 ≤ ([1, 3, 6] : List Nat).getD j 0 ∧
        ∀ k < j, ([1, 3, 6] : List Nat).getD k 0 < 4 :=
  ⟨createWeightedRanges_exact_and_binarySearch_least.1 [1, 2, 3] (by decide),
    createWeightedRanges_exact_and_binarySearch_least.2 [1, 3, 6] 4 (by decide)
      (by decide) (by decide)⟩

end BkcClique
